/-
Verification of the `carving` biquad filter library.

Shallow embedding of `src/carving_filters.h`:
* `BiquadFilter` mirrors the C++ struct (fields `b0 b1 b2 a1 a2 z1 z2`,
  with the same default member initializers); real numbers stand in for
  the C++ `float` values.
* `BiquadFilter.Update` embeds the mutating `Update` member function as a
  function returning the result together with the new state.
* `BiquadFilter.Reset` embeds `Reset`.
* `MakeLowPass` embeds the RBJ low-pass coefficient designer.

The numeric test properties (step response, zero-input decay) are settled
by comparing the real-valued trajectory with an exact rational shadow
trajectory; a quadratic Lyapunov form bounds the accumulated deviation.
-/
import Mathlib

set_option maxRecDepth 8000
set_option maxHeartbeats 1000000

structure BiquadFilter where
  b0 : ℝ := 1
  b1 : ℝ := 0
  b2 : ℝ := 0
  a1 : ℝ := 0
  a2 : ℝ := 0
  z1 : ℝ := 0
  z2 : ℝ := 0

def BiquadFilter.Update (f : BiquadFilter) (sample : ℝ) : ℝ × BiquadFilter :=
  let result := sample * f.b0 + f.z1
  (result,
    { f with
      z1 := sample * f.b1 + f.z2 - f.a1 * result
      z2 := sample * f.b2 - f.a2 * result })

def BiquadFilter.Reset (f : BiquadFilter) : BiquadFilter :=
  { f with z1 := 0, z2 := 0 }

noncomputable def MakeLowPass (cutoffHz sampleRateHz q : ℝ) : BiquadFilter :=
  let omega := 2 * Real.pi * (cutoffHz / sampleRateHz)
  let sinOmega := Real.sin omega
  let cosOmega := Real.cos omega
  let alpha := sinOmega / (2 * q)
  let b0 := (1 - cosOmega) * 0.5
  let b1 := 1 - cosOmega
  let b2 := (1 - cosOmega) * 0.5
  let a0 := 1 + alpha
  let a1 := -2 * cosOmega
  let a2 := 1 - alpha
  { b0 := b0 / a0
    b1 := b1 / a0
    b2 := b2 / a0
    a1 := a1 / a0
    a2 := a2 / a0 }

/-- State after `n` successive `Update` calls feeding inputs `x 0, x 1, …`. -/
def driveSeq (f : BiquadFilter) (x : ℕ → ℝ) : ℕ → BiquadFilter
  | 0 => f
  | n + 1 => ((driveSeq f x n).Update (x n)).2

/-- The value returned by the `(n+1)`-th `Update` call. -/
def outSeq (f : BiquadFilter) (x : ℕ → ℝ) (n : ℕ) : ℝ :=
  ((driveSeq f x n).Update (x n)).1

/-- The filter under test in `src/tests/test_filters.cpp`. -/
noncomputable def lpf : BiquadFilter := MakeLowPass 12 200 0.707

/-- The angular frequency of `lpf`, written as `pi` times a rational. -/
noncomputable def omegaR : ℝ := Real.pi * (3 / 25)

/-- Predicate `SCB r sl sh cl ch`: rational interval bounds for
`sin (pi * r)` and `cos (pi * r)`. -/
def SCB (r sl sh cl ch : ℚ) : Prop :=
  ((sl : ℝ) ≤ Real.sin (Real.pi * r) ∧ Real.sin (Real.pi * r) ≤ sh) ∧
  ((cl : ℝ) ≤ Real.cos (Real.pi * r) ∧ Real.cos (Real.pi * r) ≤ ch)

/-- Round a rational down to a multiple of `2 ^ (-50)`. -/
def rnd (x : ℚ) : ℚ := (Int.floor (x * 2 ^ 50) : ℚ) / 2 ^ 50

/-- Rational midpoint approximations of the `lpf` coefficients. -/
def qb0 : ℚ := 0.0278588970883203

def qb1 : ℚ := 0.05571779417664061

def qa1 : ℚ := -1.475434417870261

def qa2 : ℚ := 0.586870006223542

/-- Exact rational shadow trajectory: the `lpf` recurrence evaluated with the
midpoint coefficients, rounding the delay registers to 50 binary places after
each step. -/
def shadowZ (xq : ℕ → ℚ) : ℕ → ℚ × ℚ
  | 0 => (0, 0)
  | n + 1 =>
    let s := shadowZ xq n
    let y := xq n * qb0 + s.1
    (rnd (xq n * qb1 + s.2 - qa1 * y), rnd (xq n * qb0 - qa2 * y))

def shadowOut (xq : ℕ → ℚ) (n : ℕ) : ℚ := xq n * qb0 + (shadowZ xq n).1

/-- Pre-rounding value of the shadow `z1` register. -/
def preZ1 (xq : ℕ → ℚ) (n : ℕ) : ℚ :=
  xq n * qb1 + (shadowZ xq n).2 - qa1 * shadowOut xq n

/-- Pre-rounding value of the shadow `z2` register. -/
def preZ2 (xq : ℕ → ℚ) (n : ℕ) : ℚ :=
  xq n * qb0 - qa2 * shadowOut xq n

noncomputable def realX (xq : ℕ → ℚ) (n : ℕ) : ℝ := (xq n : ℝ)

/-- Deviation of the real `z1` trajectory from the shadow. -/
noncomputable def dd1 (xq : ℕ → ℚ) (n : ℕ) : ℝ :=
  (driveSeq lpf (realX xq) n).z1 - ((shadowZ xq n).1 : ℝ)

/-- Deviation of the real `z2` trajectory from the shadow. -/
noncomputable def dd2 (xq : ℕ → ℚ) (n : ℕ) : ℝ :=
  (driveSeq lpf (realX xq) n).z2 - ((shadowZ xq n).2 : ℝ)

noncomputable def pC : ℝ := -lpf.a1 / 2

noncomputable def qC : ℝ := lpf.a2 - lpf.a1 ^ 2 / 4

/-- Quadratic Lyapunov form for the deviation dynamics: one step of the
homogeneous deviation recurrence scales it by exactly `lpf.a2`. -/
noncomputable def Wf (u v : ℝ) : ℝ := (pC * u + v) ^ 2 + qC * u ^ 2

/-- Residual forcing entering the `z1` deviation at step `n`. -/
noncomputable def resid1 (xq : ℕ → ℚ) (n : ℕ) : ℝ :=
  dd1 xq (n + 1) - (-lpf.a1 * dd1 xq n + dd2 xq n)

/-- Residual forcing entering the `z2` deviation at step `n`. -/
noncomputable def resid2 (xq : ℕ → ℚ) (n : ℕ) : ℝ :=
  dd2 xq (n + 1) + lpf.a2 * dd1 xq n

/-- Input: 200 samples of `1.0` followed by zeros. -/
def stepQ : ℕ → ℚ := fun n => if n < 200 then 1 else 0

/-- Integer input sequence matching `stepQ`. -/
def stepI : ℕ → ℤ := fun n => if n < 200 then 1 else 0

/-- The midpoint coefficients as integers scaled by `10 ^ 17`. -/
def qb0i : ℤ := 2785889708832030

def qb1i : ℤ := 5571779417664061

def qa1i : ℤ := -147543441787026100

def qa2i : ℤ := 58687000622354200

/-- One step of the shadow trajectory in fixed-point arithmetic: states are
scaled by `2 ^ 50`, coefficients by `10 ^ 17`, and `Int.fdiv` realizes the
floor rounding of `rnd`. -/
def stepOne (x : ℤ) (s : ℤ × ℤ) : ℤ × ℤ :=
  let yN := x * qb0i * 1125899906842624 + s.1 * 100000000000000000
  (Int.fdiv (x * qb1i * 112589990684262400000000000000000 +
      s.2 * 10000000000000000000000000000000000 - qa1i * yN)
    10000000000000000000000000000000000,
   Int.fdiv (x * qb0i * 112589990684262400000000000000000 - qa2i * yN)
    10000000000000000000000000000000000)

/-- Iterated fixed-point shadow steps from an arbitrary state. -/
def iterI (x : ℕ → ℤ) (s : ℤ × ℤ) : ℕ → ℤ × ℤ
  | 0 => s
  | n + 1 => stepOne (x n) (iterI x s n)

/-- Scaled shadow output: `shadowOut` times `10 ^ 17 * 2 ^ 50`. -/
def yIof (x : ℤ) (s : ℤ × ℤ) : ℤ :=
  x * qb0i * 1125899906842624 + s.1 * 100000000000000000

/-- All scaled shadow outputs of the first `m` steps lie within the scaled
`21 / 20` bound. -/
@[reducible] def boundOK (x : ℕ → ℤ) (s : ℤ × ℤ) (m : ℕ) : Prop :=
  ∀ i, i < m →
    -118219490218475520000000000000000 ≤ yIof (x i) (iterI x s i) ∧
    yIof (x i) (iterI x s i) ≤ 118219490218475520000000000000000

/-- Output of the 50th zero-input update after driving
`MakeLowPass 12 200 0.707` with 200 updates of constant input `1.0`. -/
noncomputable def c5out : ℝ :=
  outSeq (driveSeq (MakeLowPass 12 200 0.707) (fun _ => (1 : ℝ)) 200)
    (fun _ => (0 : ℝ)) 49

/-- C1: `Update` returns `result = sample * b0 + z1`; its only side effect is to
replace `z1` with `sample * b1 + z2 - a1 * result` and `z2` with
`sample * b2 - a2 * result`, computed from the pre-call `z2` and the returned
result; the coefficient fields are untouched. -/
theorem update_recurrence_C1 (f : BiquadFilter) (sample : ℝ) :
    (f.Update sample).1 = sample * f.b0 + f.z1 ∧
    (f.Update sample).2.z1 = sample * f.b1 + f.z2 - f.a1 * (f.Update sample).1 ∧
    (f.Update sample).2.z2 = sample * f.b2 - f.a2 * (f.Update sample).1 ∧
    (f.Update sample).2.b0 = f.b0 ∧ (f.Update sample).2.b1 = f.b1 ∧
    (f.Update sample).2.b2 = f.b2 ∧ (f.Update sample).2.a1 = f.a1 ∧
    (f.Update sample).2.a2 = f.a2 :=
  ⟨rfl, rfl, rfl, rfl, rfl, rfl, rfl, rfl⟩

/-- C2: `MakeLowPass` returns the filter whose five coefficients are the raw RBJ
low-pass coefficients (from `omega = 2*pi*cutoffHz/sampleRateHz` and
`alpha = sin(omega)/(2*q)`) each divided by `a0_raw = 1 + alpha`, with zeroed
delay state. -/
theorem makeLowPass_formula_C2 (cutoffHz sampleRateHz q : ℝ) :
    (MakeLowPass cutoffHz sampleRateHz q).b0 =
      ((1 - Real.cos (2 * Real.pi * cutoffHz / sampleRateHz)) / 2) /
        (1 + Real.sin (2 * Real.pi * cutoffHz / sampleRateHz) / (2 * q)) ∧
    (MakeLowPass cutoffHz sampleRateHz q).b1 =
      (1 - Real.cos (2 * Real.pi * cutoffHz / sampleRateHz)) /
        (1 + Real.sin (2 * Real.pi * cutoffHz / sampleRateHz) / (2 * q)) ∧
    (MakeLowPass cutoffHz sampleRateHz q).b2 =
      ((1 - Real.cos (2 * Real.pi * cutoffHz / sampleRateHz)) / 2) /
        (1 + Real.sin (2 * Real.pi * cutoffHz / sampleRateHz) / (2 * q)) ∧
    (MakeLowPass cutoffHz sampleRateHz q).a1 =
      (-2 * Real.cos (2 * Real.pi * cutoffHz / sampleRateHz)) /
        (1 + Real.sin (2 * Real.pi * cutoffHz / sampleRateHz) / (2 * q)) ∧
    (MakeLowPass cutoffHz sampleRateHz q).a2 =
      (1 - Real.sin (2 * Real.pi * cutoffHz / sampleRateHz) / (2 * q)) /
        (1 + Real.sin (2 * Real.pi * cutoffHz / sampleRateHz) / (2 * q)) ∧
    (MakeLowPass cutoffHz sampleRateHz q).z1 = 0 ∧
    (MakeLowPass cutoffHz sampleRateHz q).z2 = 0 := by
  have h : 2 * Real.pi * cutoffHz / sampleRateHz =
      2 * Real.pi * (cutoffHz / sampleRateHz) := by ring
  refine ⟨?_, ?_, ?_, ?_, ?_, rfl, rfl⟩ <;> simp only [MakeLowPass, h] <;>
    norm_num <;> ring

/-- C7: `Reset` zeroes `z1` and `z2`, leaves the coefficients unchanged, and is
idempotent. -/
theorem reset_C7 (f : BiquadFilter) :
    f.Reset.z1 = 0 ∧ f.Reset.z2 = 0 ∧
    f.Reset.b0 = f.b0 ∧ f.Reset.b1 = f.b1 ∧ f.Reset.b2 = f.b2 ∧
    f.Reset.a1 = f.a1 ∧ f.Reset.a2 = f.a2 ∧
    f.Reset.Reset = f.Reset :=
  ⟨rfl, rfl, rfl, rfl, rfl, rfl, rfl, rfl⟩

/-- C8: `Update` leaves all five coefficient fields unchanged, and so does
`Reset`: the delay registers are the only fields either operation mutates. -/
theorem coefficients_frame_C8 (f : BiquadFilter) (sample : ℝ) :
    (f.Update sample).2.b0 = f.b0 ∧ (f.Update sample).2.b1 = f.b1 ∧
    (f.Update sample).2.b2 = f.b2 ∧ (f.Update sample).2.a1 = f.a1 ∧
    (f.Update sample).2.a2 = f.a2 ∧
    f.Reset.b0 = f.b0 ∧ f.Reset.b1 = f.b1 ∧ f.Reset.b2 = f.b2 ∧
    f.Reset.a1 = f.a1 ∧ f.Reset.a2 = f.a2 :=
  ⟨rfl, rfl, rfl, rfl, rfl, rfl, rfl, rfl, rfl, rfl⟩

/-- C9: the default-constructed filter has `b0 = 1` and all other fields `0`,
and its first `Update` with any input `x` returns exactly `x`, leaving
`z1 = z2 = 0`. -/
theorem default_filter_C9 :
    ({} : BiquadFilter).b0 = 1 ∧ ({} : BiquadFilter).b1 = 0 ∧
    ({} : BiquadFilter).b2 = 0 ∧ ({} : BiquadFilter).a1 = 0 ∧
    ({} : BiquadFilter).a2 = 0 ∧ ({} : BiquadFilter).z1 = 0 ∧
    ({} : BiquadFilter).z2 = 0 ∧
    ∀ x : ℝ,
      (({} : BiquadFilter).Update x).1 = x ∧
      (({} : BiquadFilter).Update x).2.z1 = 0 ∧
      (({} : BiquadFilter).Update x).2.z2 = 0 := by
  refine ⟨rfl, rfl, rfl, rfl, rfl, rfl, rfl, fun x => ⟨?_, ?_, ?_⟩⟩ <;>
    simp [BiquadFilter.Update]

/-- C10: the filter returned by `MakeLowPass` always satisfies `b0 = b2`
exactly, both being computed by the same expression `(1 - cos omega) * 0.5`
divided by the same `a0`. -/
theorem b0_eq_b2_C10 (cutoffHz sampleRateHz q : ℝ) :
    (MakeLowPass cutoffHz sampleRateHz q).b0 =
      (MakeLowPass cutoffHz sampleRateHz q).b2 :=
  rfl

/-- C3: for non-degenerate parameters (`0 < cutoffHz < sampleRateHz/2`,
`q > 0`, `sampleRateHz > 0`) the normalizing divisor `a0 = 1 + alpha` is
strictly positive (hence nonzero, so no division by zero occurs and, in IEEE
terms, no Inf/NaN is produced), and every stored coefficient times `a0`
recovers exactly its raw numerator: each division is a genuine, well-defined
division by a nonzero finite number. -/
theorem makeLowPass_finite_C3 (cutoffHz sampleRateHz q : ℝ)
    (hc : 0 < cutoffHz) (hn : cutoffHz < sampleRateHz / 2) (hq : 0 < q)
    (hs : 0 < sampleRateHz) :
    0 < 1 + Real.sin (2 * Real.pi * (cutoffHz / sampleRateHz)) / (2 * q) ∧
    (MakeLowPass cutoffHz sampleRateHz q).b0 *
        (1 + Real.sin (2 * Real.pi * (cutoffHz / sampleRateHz)) / (2 * q)) =
      (1 - Real.cos (2 * Real.pi * (cutoffHz / sampleRateHz))) * 0.5 ∧
    (MakeLowPass cutoffHz sampleRateHz q).b1 *
        (1 + Real.sin (2 * Real.pi * (cutoffHz / sampleRateHz)) / (2 * q)) =
      1 - Real.cos (2 * Real.pi * (cutoffHz / sampleRateHz)) ∧
    (MakeLowPass cutoffHz sampleRateHz q).b2 *
        (1 + Real.sin (2 * Real.pi * (cutoffHz / sampleRateHz)) / (2 * q)) =
      (1 - Real.cos (2 * Real.pi * (cutoffHz / sampleRateHz))) * 0.5 ∧
    (MakeLowPass cutoffHz sampleRateHz q).a1 *
        (1 + Real.sin (2 * Real.pi * (cutoffHz / sampleRateHz)) / (2 * q)) =
      -2 * Real.cos (2 * Real.pi * (cutoffHz / sampleRateHz)) ∧
    (MakeLowPass cutoffHz sampleRateHz q).a2 *
        (1 + Real.sin (2 * Real.pi * (cutoffHz / sampleRateHz)) / (2 * q)) =
      1 - Real.sin (2 * Real.pi * (cutoffHz / sampleRateHz)) / (2 * q) := by
  have hratio : cutoffHz / sampleRateHz < 1 / 2 := by
    rw [div_lt_div_iff₀ hs (by norm_num)]
    linarith
  have hratio0 : 0 < cutoffHz / sampleRateHz := div_pos hc hs
  have homega0 : 0 < 2 * Real.pi * (cutoffHz / sampleRateHz) := by
    have := Real.pi_pos
    positivity
  have homegapi : 2 * Real.pi * (cutoffHz / sampleRateHz) < Real.pi := by
    have hp := Real.pi_pos
    nlinarith
  have hsin : 0 < Real.sin (2 * Real.pi * (cutoffHz / sampleRateHz)) :=
    Real.sin_pos_of_pos_of_lt_pi homega0 homegapi
  have halpha : 0 < Real.sin (2 * Real.pi * (cutoffHz / sampleRateHz)) / (2 * q) :=
    div_pos hsin (by linarith)
  have ha0 : 0 < 1 + Real.sin (2 * Real.pi * (cutoffHz / sampleRateHz)) / (2 * q) := by
    linarith
  have ha0ne : (1 + Real.sin (2 * Real.pi * (cutoffHz / sampleRateHz)) / (2 * q)) ≠ 0 :=
    ne_of_gt ha0
  refine ⟨ha0, ?_, ?_, ?_, ?_, ?_⟩ <;>
    · simp only [MakeLowPass]
      rw [div_mul_cancel₀ _ ha0ne]

/-- Witness for C3 at the concrete test input `MakeLowPass(12, 200, 0.707)`. -/
theorem makeLowPass_finite_C3_witness :
    0 < 1 + Real.sin (2 * Real.pi * ((12:ℝ) / 200)) / (2 * 0.707) ∧
    (MakeLowPass 12 200 0.707).b0 *
        (1 + Real.sin (2 * Real.pi * ((12:ℝ) / 200)) / (2 * 0.707)) =
      (1 - Real.cos (2 * Real.pi * ((12:ℝ) / 200))) * 0.5 := by
  have h := makeLowPass_finite_C3 12 200 0.707 (by norm_num) (by norm_num)
    (by norm_num) (by norm_num)
  exact ⟨h.1, h.2.1⟩

theorem rnd_le (x : ℚ) : rnd x ≤ x := by
  rw [rnd, div_le_iff₀ (by positivity)]
  exact Int.floor_le (x * 2 ^ 50)

theorem rnd_gt (x : ℚ) : x - 1 / 2 ^ 50 < rnd x := by
  rw [rnd, lt_div_iff₀ (by positivity)]
  have h := Int.lt_floor_add_one (x * 2 ^ 50)
  have h2 : (x - 1 / 2 ^ 50) * 2 ^ 50 = x * 2 ^ 50 - 1 := by ring
  rw [h2]
  linarith

theorem abs_rnd (x : ℚ) : |rnd x - x| ≤ 1 / 2 ^ 50 := by
  rw [abs_le]
  constructor
  · linarith [rnd_gt x]
  · linarith [rnd_le x]

theorem scb_double {r R sl sh cl ch SL SH CL CH : ℚ} (hR : R = 2 * r)
    (h : SCB r sl sh cl ch) (hsl : 0 ≤ sl) (hcl : 0 ≤ cl)
    (hSL : SL ≤ 2 * sl * cl) (hSH : 2 * sh * ch ≤ SH)
    (hCL : CL ≤ 2 * cl ^ 2 - 1) (hCH : 2 * ch ^ 2 - 1 ≤ CH) :
    SCB R SL SH CL CH := by
  obtain ⟨⟨hs1, hs2⟩, hc1, hc2⟩ := h
  have hang : Real.pi * (R : ℝ) = 2 * (Real.pi * (r : ℝ)) := by
    rw [hR]; push_cast; ring
  have hsl2 : (0 : ℝ) ≤ (sl : ℝ) := by exact_mod_cast hsl
  have hcl2 : (0 : ℝ) ≤ (cl : ℝ) := by exact_mod_cast hcl
  have hSL2 : (SL : ℝ) ≤ 2 * (sl : ℝ) * (cl : ℝ) := by exact_mod_cast hSL
  have hSH2 : (2 : ℝ) * (sh : ℝ) * (ch : ℝ) ≤ (SH : ℝ) := by exact_mod_cast hSH
  have hCL2 : (CL : ℝ) ≤ 2 * (cl : ℝ) ^ 2 - 1 := by exact_mod_cast hCL
  have hCH2 : (2 : ℝ) * (ch : ℝ) ^ 2 - 1 ≤ (CH : ℝ) := by exact_mod_cast hCH
  constructor
  · rw [hang, Real.sin_two_mul]
    constructor
    · nlinarith [mul_nonneg (sub_nonneg.mpr hs1) hcl2,
        mul_nonneg (sub_nonneg.mpr hc1) (le_trans hsl2 hs1)]
    · nlinarith [mul_nonneg (sub_nonneg.mpr hs2) (le_trans (le_trans hcl2 hc1) hc2),
        mul_nonneg (le_trans hsl2 hs1) (sub_nonneg.mpr hc2)]
  · rw [hang, Real.cos_two_mul]
    constructor
    · nlinarith [mul_nonneg (sub_nonneg.mpr hc1) (by linarith :
        (0 : ℝ) ≤ (Real.cos (Real.pi * (r : ℝ))) + (cl : ℝ))]
    · nlinarith [mul_nonneg (sub_nonneg.mpr hc2) (by linarith :
        (0 : ℝ) ≤ (ch : ℝ) + Real.cos (Real.pi * (r : ℝ)))]

theorem scb_base :
    SCB (3 / 102400)
      0.0000920388471431889318415029740060894 0.0000920388471431964068805753128690292
      0.999999995764425292578425874657899 0.999999995764425300053464654054976 := by
  have hpiL := Real.pi_gt_d20
  have hpiH := Real.pi_lt_d20
  unfold SCB
  push_cast
  set t := Real.pi * ((3 : ℝ) / 102400) with ht
  have htL : (0.0000920388472731384737830078125 : ℝ) ≤ t := by
    rw [ht]; linarith
  have htH : t ≤ (0.00009203884727313847378330078125 : ℝ) := by
    rw [ht]; linarith
  have ht0 : (0 : ℝ) ≤ t := le_trans (by norm_num) htL
  have ht1 : |t| ≤ 1 := abs_le.mpr ⟨by linarith, by linarith⟩
  have hcb := Real.cos_bound ht1
  have hsb := Real.sin_bound ht1
  rw [abs_le] at hcb hsb
  rw [abs_of_nonneg ht0] at hcb hsb
  have h2 := pow_le_pow_left ht0 htH 2
  have h3 := pow_le_pow_left ht0 htH 3
  have h4 := pow_le_pow_left ht0 htH 4
  have h2a := pow_le_pow_left (by norm_num :
    (0 : ℝ) ≤ 0.0000920388472731384737830078125) htL 2
  have h3a := pow_le_pow_left (by norm_num :
    (0 : ℝ) ≤ 0.0000920388472731384737830078125) htL 3
  refine ⟨⟨?_, ?_⟩, ?_, ?_⟩
  · linarith [hsb.1]
  · linarith [hsb.2]
  · linarith [hcb.1]
  · linarith [hcb.2]

theorem scb1 :
    SCB (3 / 51200)
      0.000184077693506703037563143060987974 0.000184077693506717989017212319753777
      0.999999983057701206193889702930302 0.99999998305770123609404469387427 :=
  scb_double (by norm_num) scb_base (by norm_num) (by norm_num)
    (by norm_num) (by norm_num) (by norm_num) (by norm_num)

theorem scb2 :
    SCB (3 / 25600)
      0.000368155380776007505795834652151816 0.000368155380776037419711369678131633
      0.999999932230805398858535648929167 0.999999932230805518459153586395603 :=
  scb_double (by norm_num) scb1 (by norm_num) (by norm_num)
    (by norm_num) (by norm_num) (by norm_num) (by norm_num)

theorem scb3 :
    SCB (3 / 12800)
      0.000736310711652827725058493476005097 0.000736310711652887640948731119673035
      0.999999728923230780761616370479466 0.999999728923231259164055699395034 :=
  scb_double (by norm_num) scb2 (by norm_num) (by norm_num)
    (by norm_num) (by norm_num) (by norm_num) (by norm_num)

theorem scb4 :
    SCB (3 / 6400)
      0.00147262102411219773738346756332085 0.00147262102411231827363714035625816
      0.99999891569307008827608616237066 0.999998915693072001885324742882831 :=
  scb_double (by norm_num) scb3 (by norm_num) (by norm_num)
    (by norm_num) (by norm_num) (by norm_num) (by norm_num)

theorem scb5 :
    SCB (3 / 3200)
      0.00294523885467803231765516759430758 0.00294523885467827902594350992831105
      0.999995662774631796140853825794739 0.999995662774639450569508388816604 :=
  scb_double (by norm_num) scb4 (by norm_num) (by norm_num)
    (by norm_num) (by norm_num) (by norm_num) (by norm_num)

theorem scb6 :
    SCB (3 / 1600)
      0.00589045216102671277682809788544507 0.00589045216102725127950609122355257
      0.999982651136150232352597506268181 0.999982651136180849934419829914113 :=
  scb_double (by norm_num) scb5 (by norm_num) (by norm_num)
    (by norm_num) (by norm_num) (by norm_num) (by norm_num)

theorem scb7 :
    SCB (3 / 800)
      0.0117806999367483151095475594806148 0.0117806999367497527990207483403595
      0.999930605146567083165939455755511 0.999930605146689551368507718435658 :=
  scb_double (by norm_num) scb6 (by norm_num) (by norm_num)
    (by norm_num) (by norm_num) (by norm_num) (by norm_num)

theorem scb8 :
    SCB (3 / 400)
      0.0235597648336057345752058008288377 0.0235597648336114952769081775764891
      0.999722430217559698615776441283458 0.999722430218049537431397652331537 :=
  scb_double (by norm_num) scb7 (by norm_num) (by norm_num)
    (by norm_num) (by norm_num) (by norm_num) (by norm_num)

theorem scb9 :
    SCB (3 / 200)
      0.0471064507096130519362351859333289 0.0471064507096476511162513239906997
      0.998889874960207042375591085790178 0.998889874962165853780262478688811 :=
  scb_double (by norm_num) scb8 (by norm_num) (by norm_num)
    (by norm_num) (by norm_num) (by norm_num) (by norm_num)

theorem scb10 :
    SCB (3 / 100)
      0.0941083133182890755000610668906786 0.0941083133185427423470284558641191
      0.995561964596036120133862489897256 0.99556196460386266765020150445898 :=
  scb_double (by norm_num) scb9 (by norm_num) (by norm_num)
    (by norm_num) (by norm_num) (by norm_num) (by norm_num)

theorem scb11 :
    SCB (3 / 50)
      0.18738131458395036613431999322776 0.187381314585928534635099653865908
      0.982287250700638154212150446400625 0.982287250731805406297755741862983 :=
  scb_double (by norm_num) scb10 (by norm_num) (by norm_num)
    (by norm_num) (by norm_num) (by norm_num) (by norm_num)

theorem scb12 :
    SCB (3 / 25)
      0.36812455267067999534103921771962 0.368124552686246576072809615966626
      0.929776485778036703966304360600187 0.929776485900497481420498980758445 :=
  scb_double (by norm_num) scb11 (by norm_num) (by norm_num)
    (by norm_num) (by norm_num) (by norm_num) (by norm_num)

theorem sinW_bounds :
    (0.36812455267067999534103921771962 : ℝ) ≤ Real.sin omegaR ∧
    Real.sin omegaR ≤ 0.368124552686246576072809615966626 := by
  have h := scb12
  unfold SCB at h
  have hc : ((3 / 25 : ℚ) : ℝ) = (3 : ℝ) / 25 := by norm_num
  rw [hc] at h
  unfold omegaR
  exact ⟨by exact_mod_cast h.1.1, by exact_mod_cast h.1.2⟩

theorem cosW_bounds :
    (0.929776485778036703966304360600187 : ℝ) ≤ Real.cos omegaR ∧
    Real.cos omegaR ≤ 0.929776485900497481420498980758445 := by
  have h := scb12
  unfold SCB at h
  have hc : ((3 / 25 : ℚ) : ℝ) = (3 : ℝ) / 25 := by norm_num
  rw [hc] at h
  unfold omegaR
  exact ⟨by exact_mod_cast h.2.1, by exact_mod_cast h.2.2⟩

theorem lpf_fields :
    lpf.b0 = (1 - Real.cos omegaR) * 0.5 / (1 + Real.sin omegaR / (2 * 0.707)) ∧
    lpf.b1 = (1 - Real.cos omegaR) / (1 + Real.sin omegaR / (2 * 0.707)) ∧
    lpf.b2 = (1 - Real.cos omegaR) * 0.5 / (1 + Real.sin omegaR / (2 * 0.707)) ∧
    lpf.a1 = -2 * Real.cos omegaR / (1 + Real.sin omegaR / (2 * 0.707)) ∧
    lpf.a2 = (1 - Real.sin omegaR / (2 * 0.707)) /
      (1 + Real.sin omegaR / (2 * 0.707)) ∧
    lpf.z1 = 0 ∧ lpf.z2 = 0 := by
  have homega : 2 * Real.pi * ((12 : ℝ) / 200) = omegaR := by
    unfold omegaR; ring
  unfold lpf MakeLowPass
  rw [homega]
  exact ⟨rfl, rfl, rfl, rfl, rfl, rfl, rfl⟩

theorem div_bounds (x y xl xh yl yh : ℝ) (hxl : xl ≤ x) (hxh : x ≤ xh)
    (hyl : yl ≤ y) (hyh : y ≤ yh) (hx0 : 0 ≤ xl) (hy0 : 0 < yl) :
    xl / yh ≤ x / y ∧ x / y ≤ xh / yl := by
  have hy : 0 < y := lt_of_lt_of_le hy0 hyl
  have hyh0 : 0 < yh := lt_of_lt_of_le hy hyh
  constructor
  · rw [div_le_div_iff hyh0 hy]
    nlinarith
  · rw [div_le_div_iff hy hy0]
    nlinarith

theorem alpha_bounds :
    (0.260342682228203674215727876746548 : ℝ) ≤ Real.sin omegaR / (2 * 0.707) ∧
    Real.sin omegaR / (2 * 0.707) ≤ 0.260342682239212571480063377628449 := by
  have hs := sinW_bounds
  constructor
  · rw [le_div_iff₀ (by norm_num : (0 : ℝ) < 2 * 0.707)]
    nlinarith [hs.1]
  · rw [div_le_iff₀ (by norm_num : (0 : ℝ) < 2 * 0.707)]
    nlinarith [hs.2]

theorem b0_bounds :
    (0.0278588970639074658303881969077779 : ℝ) ≤ lpf.b0 ∧
    lpf.b0 ≤ 0.0278588971127331426328099103818995 := by
  have hc := cosW_bounds
  have ha := alpha_bounds
  rw [lpf_fields.1]
  have h := div_bounds
    ((1 - Real.cos omegaR) * 0.5) (1 + Real.sin omegaR / (2 * 0.707))
    ((1 - 0.929776485900497481420498980758445) * 0.5)
    ((1 - 0.929776485778036703966304360600187) * 0.5)
    (1 + 0.260342682228203674215727876746548)
    (1 + 0.260342682239212571480063377628449)
    (by nlinarith [hc.2]) (by nlinarith [hc.1]) (by linarith [ha.1])
    (by linarith [ha.2]) (by norm_num) (by norm_num)
  exact ⟨le_trans (by norm_num) h.1, le_trans h.2 (by norm_num)⟩

theorem b1_bounds :
    (0.0557177941278149316607763938155559 : ℝ) ≤ lpf.b1 ∧
    lpf.b1 ≤ 0.0557177942254662852656198207637989 := by
  have hc := cosW_bounds
  have ha := alpha_bounds
  rw [lpf_fields.2.1]
  have h := div_bounds
    (1 - Real.cos omegaR) (1 + Real.sin omegaR / (2 * 0.707))
    (1 - 0.929776485900497481420498980758445)
    (1 - 0.929776485778036703966304360600187)
    (1 + 0.260342682228203674215727876746548)
    (1 + 0.260342682239212571480063377628449)
    (by linarith [hc.2]) (by linarith [hc.1]) (by linarith [ha.1])
    (by linarith [ha.2]) (by norm_num) (by norm_num)
  exact ⟨le_trans (by norm_num) h.1, le_trans h.2 (by norm_num)⟩

theorem a1_bounds :
    (-1.47543441797386927470176481951911 : ℝ) ≤ lpf.a1 ∧
    lpf.a1 ≤ -1.47543441776665224990647244332156 := by
  have hc := cosW_bounds
  have ha := alpha_bounds
  have heq : lpf.a1 =
      -(2 * Real.cos omegaR / (1 + Real.sin omegaR / (2 * 0.707))) := by
    rw [lpf_fields.2.2.2.1]; ring
  rw [heq]
  have h := div_bounds
    (2 * Real.cos omegaR) (1 + Real.sin omegaR / (2 * 0.707))
    (2 * 0.929776485778036703966304360600187)
    (2 * 0.929776485900497481420498980758445)
    (1 + 0.260342682228203674215727876746548)
    (1 + 0.260342682239212571480063377628449)
    (by linarith [hc.1]) (by linarith [hc.2]) (by linarith [ha.1])
    (by linarith [ha.2]) (by norm_num) (by norm_num)
  constructor
  · have := h.2
    have hnum : (2 * 0.929776485900497481420498980758445 : ℝ) /
        (1 + 0.260342682228203674215727876746548) ≤
        1.47543441797386927470176481951911 := by norm_num
    linarith
  · have := h.1
    have hnum : (1.47543441776665224990647244332156 : ℝ) ≤
        (2 * 0.929776485778036703966304360600187) /
        (1 + 0.260342682239212571480063377628449) := by norm_num
    linarith

theorem a2_bounds :
    (0.586870006216611447908054118884674 : ℝ) ≤ lpf.a2 ∧
    lpf.a2 ≤ 0.586870006230472510551278136607068 := by
  have ha := alpha_bounds
  rw [lpf_fields.2.2.2.2.1]
  have h := div_bounds
    (1 - Real.sin omegaR / (2 * 0.707))
    (1 + Real.sin omegaR / (2 * 0.707))
    (1 - 0.260342682239212571480063377628449)
    (1 - 0.260342682228203674215727876746548)
    (1 + 0.260342682228203674215727876746548)
    (1 + 0.260342682239212571480063377628449)
    (by linarith [ha.2]) (by linarith [ha.1]) (by linarith [ha.1])
    (by linarith [ha.2]) (by norm_num) (by norm_num)
  exact ⟨le_trans (by norm_num) h.1, le_trans h.2 (by norm_num)⟩

theorem b0_close : |lpf.b0 - (qb0 : ℝ)| ≤ 0.0000000000245 := by
  have h := b0_bounds
  have hq : ((qb0 : ℚ) : ℝ) = (0.0278588970883203 : ℝ) := by
    norm_num [qb0]
  rw [hq, abs_le]
  constructor <;> nlinarith [h.1, h.2]

theorem b1_close : |lpf.b1 - (qb1 : ℝ)| ≤ 0.0000000000489 := by
  have h := b1_bounds
  have hq : ((qb1 : ℚ) : ℝ) = (0.05571779417664061 : ℝ) := by
    norm_num [qb1]
  rw [hq, abs_le]
  constructor <;> nlinarith [h.1, h.2]

theorem a1_close : |lpf.a1 - (qa1 : ℝ)| ≤ 0.000000000104 := by
  have h := a1_bounds
  have hq : ((qa1 : ℚ) : ℝ) = (-1.475434417870261 : ℝ) := by
    norm_num [qa1]
  rw [hq, abs_le]
  constructor <;> nlinarith [h.1, h.2]

theorem a2_close : |lpf.a2 - (qa2 : ℝ)| ≤ 0.00000000000694 := by
  have h := a2_bounds
  have hq : ((qa2 : ℚ) : ℝ) = (0.586870006223542 : ℝ) := by
    norm_num [qa2]
  rw [hq, abs_le]
  constructor <;> nlinarith [h.1, h.2]

theorem a1_abs : |lpf.a1| ≤ 1.476 := by
  have h := a1_bounds
  rw [abs_le]
  constructor <;> nlinarith [h.1, h.2]

theorem a2_mem : (0 : ℝ) ≤ lpf.a2 ∧ lpf.a2 ≤ 0.5869 := by
  have h := a2_bounds
  constructor <;> nlinarith [h.1, h.2]

theorem pC_abs : |pC| ≤ 0.7378 := by
  have h := a1_bounds
  unfold pC
  rw [abs_le]
  constructor <;> nlinarith [h.1, h.2]

theorem qC_mem : (0.0426 : ℝ) ≤ qC ∧ qC ≤ 0.0427 := by
  have h1 := a1_bounds
  have h2 := a2_bounds
  unfold qC
  constructor
  · nlinarith [h1.1, h1.2, h2.1]
  · nlinarith [h1.1, h1.2, h2.2]

theorem driveSeq_coeffs (f : BiquadFilter) (x : ℕ → ℝ) (n : ℕ) :
    (driveSeq f x n).b0 = f.b0 ∧ (driveSeq f x n).b1 = f.b1 ∧
    (driveSeq f x n).b2 = f.b2 ∧ (driveSeq f x n).a1 = f.a1 ∧
    (driveSeq f x n).a2 = f.a2 := by
  induction n with
  | zero => exact ⟨rfl, rfl, rfl, rfl, rfl⟩
  | succ n ih => simpa [driveSeq, BiquadFilter.Update] using ih

theorem driveSeq_z (f : BiquadFilter) (x : ℕ → ℝ) (n : ℕ) :
    (driveSeq f x (n + 1)).z1 =
      x n * f.b1 + (driveSeq f x n).z2 -
        f.a1 * (x n * f.b0 + (driveSeq f x n).z1) ∧
    (driveSeq f x (n + 1)).z2 =
      x n * f.b2 - f.a2 * (x n * f.b0 + (driveSeq f x n).z1) := by
  have hc := driveSeq_coeffs f x n
  constructor <;>
    simp [driveSeq, BiquadFilter.Update, hc.1, hc.2.1, hc.2.2.1, hc.2.2.2.1,
      hc.2.2.2.2]

theorem shadowZ_succ (xq : ℕ → ℚ) (n : ℕ) :
    shadowZ xq (n + 1) = (rnd (preZ1 xq n), rnd (preZ2 xq n)) := rfl

theorem resid1_eq (xq : ℕ → ℚ) (n : ℕ) :
    resid1 xq n = realX xq n * (lpf.b1 - (qb1 : ℝ)) -
      lpf.a1 * (realX xq n * (lpf.b0 - (qb0 : ℝ))) -
      ((shadowOut xq n : ℚ) : ℝ) * (lpf.a1 - (qa1 : ℝ)) -
      ((rnd (preZ1 xq n) - preZ1 xq n : ℚ) : ℝ) := by
  unfold resid1 dd1 dd2
  rw [(driveSeq_z lpf (realX xq) n).1, shadowZ_succ]
  unfold realX preZ1 shadowOut
  push_cast
  ring

theorem resid2_eq (xq : ℕ → ℚ) (n : ℕ) :
    resid2 xq n = realX xq n * (lpf.b2 - (qb0 : ℝ)) -
      lpf.a2 * (realX xq n * (lpf.b0 - (qb0 : ℝ))) -
      ((shadowOut xq n : ℚ) : ℝ) * (lpf.a2 - (qa2 : ℝ)) -
      ((rnd (preZ2 xq n) - preZ2 xq n : ℚ) : ℝ) := by
  unfold resid2 dd1 dd2
  rw [(driveSeq_z lpf (realX xq) n).2, shadowZ_succ]
  unfold realX preZ2 shadowOut
  push_cast
  ring

theorem abs_sub4 (a b c d : ℝ) : |a - b - c - d| ≤ |a| + |b| + |c| + |d| := by
  calc |a - b - c - d| ≤ |a - b - c| + |d| := abs_sub _ _
    _ ≤ |a - b| + |c| + |d| := by linarith [abs_sub (a - b) c]
    _ ≤ |a| + |b| + |c| + |d| := by linarith [abs_sub a b]

theorem realX_abs (xq : ℕ → ℚ) (n : ℕ) (hx : |xq n| ≤ 1) : |realX xq n| ≤ 1 := by
  unfold realX
  exact_mod_cast hx

theorem resid1_bound (xq : ℕ → ℚ) (n : ℕ) (hx : |xq n| ≤ 1)
    (hy : |shadowOut xq n| ≤ 21 / 20) : |resid1 xq n| ≤ 0.0000000002 := by
  rw [resid1_eq]
  have hx2 := realX_abs xq n hx
  have hy2 : |((shadowOut xq n : ℚ) : ℝ)| ≤ 21 / 20 := by
    have h6 : ((|shadowOut xq n| : ℚ) : ℝ) ≤ ((21 / 20 : ℚ) : ℝ) := by
      exact_mod_cast hy
    push_cast at h6
    exact h6
  have hr : |((rnd (preZ1 xq n) - preZ1 xq n : ℚ) : ℝ)| ≤ 1 / 2 ^ 50 := by
    have h7 : ((|rnd (preZ1 xq n) - preZ1 xq n| : ℚ) : ℝ) ≤
        ((1 / 2 ^ 50 : ℚ) : ℝ) := by exact_mod_cast abs_rnd (preZ1 xq n)
    push_cast at h7 ⊢
    exact h7
  have e1 : |realX xq n * (lpf.b1 - (qb1 : ℝ))| ≤ 1 * 0.0000000000489 := by
    rw [abs_mul]
    exact mul_le_mul hx2 b1_close (abs_nonneg _) (by norm_num)
  have e2 : |lpf.a1 * (realX xq n * (lpf.b0 - (qb0 : ℝ)))| ≤
      1.476 * (1 * 0.0000000000245) := by
    rw [abs_mul, abs_mul]
    refine mul_le_mul a1_abs ?_ (mul_nonneg (abs_nonneg _) (abs_nonneg _))
      (by norm_num)
    exact mul_le_mul hx2 b0_close (abs_nonneg _) (by norm_num)
  have e3 : |((shadowOut xq n : ℚ) : ℝ) * (lpf.a1 - (qa1 : ℝ))| ≤
      (21 / 20) * 0.000000000104 := by
    rw [abs_mul]
    exact mul_le_mul hy2 a1_close (abs_nonneg _) (by norm_num)
  have ht := abs_sub4 (realX xq n * (lpf.b1 - (qb1 : ℝ)))
    (lpf.a1 * (realX xq n * (lpf.b0 - (qb0 : ℝ))))
    (((shadowOut xq n : ℚ) : ℝ) * (lpf.a1 - (qa1 : ℝ)))
    (((rnd (preZ1 xq n) - preZ1 xq n : ℚ) : ℝ))
  have hfin : (1 : ℝ) * 0.0000000000489 + 1.476 * (1 * 0.0000000000245) +
      (21 / 20) * 0.000000000104 + 1 / 2 ^ 50 ≤ 0.0000000002 := by norm_num
  linarith

theorem a2_abs : |lpf.a2| ≤ 0.587 := by
  have h := a2_mem
  rw [abs_le]
  constructor <;> linarith

theorem b2_close : |lpf.b2 - (qb0 : ℝ)| ≤ 0.0000000000245 := b0_close

theorem resid2_bound (xq : ℕ → ℚ) (n : ℕ) (hx : |xq n| ≤ 1)
    (hy : |shadowOut xq n| ≤ 21 / 20) : |resid2 xq n| ≤ 0.00000000005 := by
  rw [resid2_eq]
  have hx2 := realX_abs xq n hx
  have hy2 : |((shadowOut xq n : ℚ) : ℝ)| ≤ 21 / 20 := by
    have h6 : ((|shadowOut xq n| : ℚ) : ℝ) ≤ ((21 / 20 : ℚ) : ℝ) := by
      exact_mod_cast hy
    push_cast at h6
    exact h6
  have hr : |((rnd (preZ2 xq n) - preZ2 xq n : ℚ) : ℝ)| ≤ 1 / 2 ^ 50 := by
    have h7 : ((|rnd (preZ2 xq n) - preZ2 xq n| : ℚ) : ℝ) ≤
        ((1 / 2 ^ 50 : ℚ) : ℝ) := by exact_mod_cast abs_rnd (preZ2 xq n)
    push_cast at h7 ⊢
    exact h7
  have e1 : |realX xq n * (lpf.b2 - (qb0 : ℝ))| ≤ 1 * 0.0000000000245 := by
    rw [abs_mul]
    exact mul_le_mul hx2 b2_close (abs_nonneg _) (by norm_num)
  have e2 : |lpf.a2 * (realX xq n * (lpf.b0 - (qb0 : ℝ)))| ≤
      0.587 * (1 * 0.0000000000245) := by
    rw [abs_mul, abs_mul]
    refine mul_le_mul a2_abs ?_ (mul_nonneg (abs_nonneg _) (abs_nonneg _))
      (by norm_num)
    exact mul_le_mul hx2 b0_close (abs_nonneg _) (by norm_num)
  have e3 : |((shadowOut xq n : ℚ) : ℝ) * (lpf.a2 - (qa2 : ℝ))| ≤
      (21 / 20) * 0.00000000000694 := by
    rw [abs_mul]
    exact mul_le_mul hy2 a2_close (abs_nonneg _) (by norm_num)
  have ht := abs_sub4 (realX xq n * (lpf.b2 - (qb0 : ℝ)))
    (lpf.a2 * (realX xq n * (lpf.b0 - (qb0 : ℝ))))
    (((shadowOut xq n : ℚ) : ℝ) * (lpf.a2 - (qa2 : ℝ)))
    (((rnd (preZ2 xq n) - preZ2 xq n : ℚ) : ℝ))
  have hfin : (1 : ℝ) * 0.0000000000245 + 0.587 * (1 * 0.0000000000245) +
      (21 / 20) * 0.00000000000694 + 1 / 2 ^ 50 ≤ 0.00000000005 := by norm_num
  linarith

theorem Wf_nonneg (u v : ℝ) : 0 ≤ Wf u v := by
  unfold Wf
  have hq : (0 : ℝ) ≤ qC := le_trans (by norm_num) qC_mem.1
  exact add_nonneg (sq_nonneg _) (mul_nonneg hq (sq_nonneg _))

theorem Wf_scale (u v : ℝ) :
    Wf (-lpf.a1 * u + v) (-lpf.a2 * u) = lpf.a2 * Wf u v := by
  unfold Wf pC qC
  ring

theorem Wf_subadd (u1 u2 v1 v2 : ℝ) :
    Wf (u1 + v1) (u2 + v2) ≤ (5 / 4) * Wf u1 u2 + 5 * Wf v1 v2 := by
  unfold Wf
  have hq : (0 : ℝ) ≤ qC := le_trans (by norm_num) qC_mem.1
  nlinarith [sq_nonneg (pC * u1 + u2 - 4 * (pC * v1 + v2)),
    mul_nonneg hq (sq_nonneg (u1 - 4 * v1))]

theorem Wf_of_close {e1 e2 E1 E2 : ℝ} (h1 : |e1| ≤ E1) (h2 : |e2| ≤ E2) :
    Wf e1 e2 ≤ (0.7378 * E1 + E2) ^ 2 + 0.0427 * E1 ^ 2 := by
  unfold Wf
  have hp := pC_abs
  have hq := qC_mem
  have he1 : e1 ^ 2 ≤ E1 ^ 2 :=
    sq_le_sq' (neg_le_of_abs_le h1) (le_of_abs_le h1)
  have hx : |pC * e1 + e2| ≤ 0.7378 * E1 + E2 := by
    have h5 : |pC * e1| ≤ 0.7378 * E1 := by
      rw [abs_mul]
      exact mul_le_mul hp h1 (abs_nonneg _) (by norm_num)
    calc |pC * e1 + e2| ≤ |pC * e1| + |e2| := abs_add _ _
      _ ≤ 0.7378 * E1 + E2 := by linarith
  have hx2 : (pC * e1 + e2) ^ 2 ≤ (0.7378 * E1 + E2) ^ 2 :=
    sq_le_sq' (neg_le_of_abs_le hx) (le_of_abs_le hx)
  have hq2 : qC * e1 ^ 2 ≤ 0.0427 * E1 ^ 2 :=
    mul_le_mul hq.2 he1 (sq_nonneg _) (by norm_num)
  linarith

theorem W_invariant (xq : ℕ → ℚ) (hx : ∀ n, |xq n| ≤ 1) (N : ℕ)
    (hY : ∀ n, n < N → |shadowOut xq n| ≤ 21 / 20) :
    ∀ n, n ≤ N → Wf (dd1 xq n) (dd2 xq n) ≤ 0.00000000000000000082 := by
  intro n
  induction n with
  | zero =>
    intro _
    have h1 : dd1 xq 0 = 0 := by
      unfold dd1
      simp [driveSeq, shadowZ, lpf_fields.2.2.2.2.2.1]
    have h2 : dd2 xq 0 = 0 := by
      unfold dd2
      simp [driveSeq, shadowZ, lpf_fields.2.2.2.2.2.2]
    rw [h1, h2]
    unfold Wf
    norm_num
  | succ n ih =>
    intro hn1
    have hn : n < N := lt_of_lt_of_le (Nat.lt_succ_self n) hn1
    have hW := ih (le_of_lt hn)
    have hr1 := resid1_bound xq n (hx n) (hY n hn)
    have hr2 := resid2_bound xq n (hx n) (hY n hn)
    have hd1 : dd1 xq (n + 1) =
        (-lpf.a1 * dd1 xq n + dd2 xq n) + resid1 xq n := by
      unfold resid1; ring
    have hd2 : dd2 xq (n + 1) = (-lpf.a2 * dd1 xq n) + resid2 xq n := by
      unfold resid2; ring
    rw [hd1, hd2]
    have hsub := Wf_subadd (-lpf.a1 * dd1 xq n + dd2 xq n) (-lpf.a2 * dd1 xq n)
      (resid1 xq n) (resid2 xq n)
    rw [Wf_scale] at hsub
    have hWe := Wf_of_close hr1 hr2
    have hnn := Wf_nonneg (dd1 xq n) (dd2 xq n)
    have hb : lpf.a2 * Wf (dd1 xq n) (dd2 xq n) ≤
        0.5869 * 0.00000000000000000082 :=
      mul_le_mul a2_mem.2 hW hnn (by norm_num)
    have hfin : (5 / 4 : ℝ) * (0.5869 * 0.00000000000000000082) +
        5 * ((0.7378 * 0.0000000002 + 0.00000000005) ^ 2 +
          0.0427 * 0.0000000002 ^ 2) ≤ 0.00000000000000000082 := by norm_num
    linarith

theorem dd1_small (xq : ℕ → ℚ) (hx : ∀ n, |xq n| ≤ 1) (N : ℕ)
    (hY : ∀ n, n < N → |shadowOut xq n| ≤ 21 / 20) :
    ∀ n, n ≤ N → |dd1 xq n| ≤ 0.0000000045 := by
  intro n hn
  have hW := W_invariant xq hx N hY n hn
  have h1 : qC * (dd1 xq n) ^ 2 ≤ 0.00000000000000000082 := by
    have h2 := sq_nonneg (pC * dd1 xq n + dd2 xq n)
    unfold Wf at hW
    linarith
  have h3 : (dd1 xq n) ^ 2 ≤ 0.0000000045 ^ 2 := by
    have h4 : (0.0426 : ℝ) * (dd1 xq n) ^ 2 ≤ qC * (dd1 xq n) ^ 2 :=
      mul_le_mul_of_nonneg_right qC_mem.1 (sq_nonneg _)
    nlinarith
  nlinarith [sq_abs (dd1 xq n), abs_nonneg (dd1 xq n)]

theorem outSeq_eq (f : BiquadFilter) (x : ℕ → ℝ) (n : ℕ) :
    outSeq f x n = x n * f.b0 + (driveSeq f x n).z1 := by
  unfold outSeq BiquadFilter.Update
  rw [(driveSeq_coeffs f x n).1]

theorem out_close (xq : ℕ → ℚ) (hx : ∀ n, |xq n| ≤ 1) (N : ℕ)
    (hY : ∀ n, n < N → |shadowOut xq n| ≤ 21 / 20) :
    ∀ n, n ≤ N →
      |outSeq lpf (realX xq) n - ((shadowOut xq n : ℚ) : ℝ)| ≤ 0.000000005 := by
  intro n hn
  have hd := dd1_small xq hx N hY n hn
  rw [outSeq_eq]
  have heq : realX xq n * lpf.b0 + (driveSeq lpf (realX xq) n).z1 -
      ((shadowOut xq n : ℚ) : ℝ) =
      realX xq n * (lpf.b0 - (qb0 : ℝ)) + dd1 xq n := by
    unfold shadowOut dd1 realX
    push_cast
    ring
  rw [heq]
  have hx2 := realX_abs xq n (hx n)
  have e1 : |realX xq n * (lpf.b0 - (qb0 : ℝ))| ≤ 1 * 0.0000000000245 := by
    rw [abs_mul]
    exact mul_le_mul hx2 b0_close (abs_nonneg _) (by norm_num)
  have ht := abs_add (realX xq n * (lpf.b0 - (qb0 : ℝ))) (dd1 xq n)
  have hfin : (1 : ℝ) * 0.0000000000245 + 0.0000000045 ≤ 0.000000005 := by
    norm_num
  linarith

theorem iterI_add (x : ℕ → ℤ) (s : ℤ × ℤ) (a b : ℕ) :
    iterI x s (a + b) = iterI (fun i => x (a + i)) (iterI x s a) b := by
  induction b with
  | zero => rfl
  | succ b ih => simp [iterI, ih]

theorem ck1 : iterI stepI (0, 0) 50 =
    (1094531490533984, -629388827431864) := by decide

theorem ck2 : iterI (fun i => stepI (50 + i))
    (1094531490533984, -629388827431864) 50 =
    (1094533577205853, -629390555698356) := by decide

theorem ck3 : iterI (fun i => stepI (100 + i))
    (1094533577205853, -629390555698356) 50 =
    (1094533577206138, -629390555699334) := by decide

theorem ck4 : iterI (fun i => stepI (150 + i))
    (1094533577206138, -629390555699334) 50 =
    (1094533577206138, -629390555699334) := by decide

theorem st100 : iterI stepI (0, 0) 100 =
    (1094533577205853, -629390555698356) := by
  show iterI stepI (0, 0) (50 + 50) = _
  rw [iterI_add, ck1]
  exact ck2

theorem st150 : iterI stepI (0, 0) 150 =
    (1094533577206138, -629390555699334) := by
  show iterI stepI (0, 0) (100 + 50) = _
  rw [iterI_add, st100]
  exact ck3

theorem st200 : iterI stepI (0, 0) 200 =
    (1094533577206138, -629390555699334) := by
  show iterI stepI (0, 0) (150 + 50) = _
  rw [iterI_add, st150]
  exact ck4

theorem bd0 : boundOK stepI (0, 0) 50 := by decide

theorem bd1 : boundOK (fun i => stepI (50 + i))
    (1094531490533984, -629388827431864) 50 := by decide

theorem bd2 : boundOK (fun i => stepI (100 + i))
    (1094533577205853, -629390555698356) 50 := by decide

theorem bd3 : boundOK (fun i => stepI (150 + i))
    (1094533577206138, -629390555699334) 50 := by decide

theorem bd4 : boundOK (fun i => stepI (200 + i))
    (1094533577206138, -629390555699334) 50 := by decide

theorem y199I : 111464090777419776000000000000000 ≤
    yIof (stepI 199) (iterI (fun i => stepI (150 + i))
      (1094533577206138, -629390555699334) 49) ∧
    yIof (stepI 199) (iterI (fun i => stepI (150 + i))
      (1094533577206138, -629390555699334) 49) ≤
    113715890591105024000000000000000 := by decide

theorem y249I : 292733975779082240000000000 ≤
    yIof (stepI 249) (iterI (fun i => stepI (200 + i))
      (1094533577206138, -629390555699334) 49) ∧
    yIof (stepI 249) (iterI (fun i => stepI (200 + i))
      (1094533577206138, -629390555699334) 49) ≤
    303992974847508480000000000 := by decide

theorem stepQ_cast (n : ℕ) : stepQ n = ((stepI n : ℤ) : ℚ) := by
  unfold stepQ stepI
  by_cases h : n < 200 <;> simp [h]

theorem qb0_eq : qb0 = (qb0i : ℚ) / 100000000000000000 := by
  norm_num [qb0, qb0i]

theorem qb1_eq : qb1 = (qb1i : ℚ) / 100000000000000000 := by
  norm_num [qb1, qb1i]

theorem qa1_eq : qa1 = (qa1i : ℚ) / 100000000000000000 := by
  norm_num [qa1, qa1i]

theorem qa2_eq : qa2 = (qa2i : ℚ) / 100000000000000000 := by
  norm_num [qa2, qa2i]

theorem floor_fdiv (P Q : ℤ) (hQ : 0 < Q) :
    Int.floor ((P : ℚ) / (Q : ℚ)) = P.fdiv Q := by
  have hQ0 : (0 : ℚ) < (Q : ℚ) := by exact_mod_cast hQ
  rw [Int.floor_eq_iff]
  constructor
  · rw [le_div_iff₀ hQ0]
    have h := Int.fdiv_add_fmod P Q
    have h2 := Int.fmod_nonneg' P hQ
    have h3 : (Q * P.fdiv Q + P.fmod Q : ℤ) = P := h
    have h4 : ((Q * P.fdiv Q + P.fmod Q : ℤ) : ℚ) = (P : ℚ) := by
      exact_mod_cast congrArg (fun z : ℤ => (z : ℚ)) h3
    push_cast at h4
    have h5 : ((P.fmod Q : ℤ) : ℚ) ≥ 0 := by exact_mod_cast h2
    nlinarith
  · rw [div_lt_iff₀ hQ0]
    have h := Int.fdiv_add_fmod P Q
    have h2 := Int.fmod_lt_of_pos P hQ
    have h4 : ((Q * P.fdiv Q + P.fmod Q : ℤ) : ℚ) = (P : ℚ) := by
      exact_mod_cast congrArg (fun z : ℤ => (z : ℚ)) h
    push_cast at h4
    have h5 : ((P.fmod Q : ℤ) : ℚ) < (Q : ℚ) := by exact_mod_cast h2
    nlinarith

theorem rnd_fdiv (P : ℤ) :
    rnd ((P : ℚ) / 11258999068426240000000000000000000000000000000000) =
      ((P.fdiv 10000000000000000000000000000000000 : ℤ) : ℚ) /
        1125899906842624 := by
  unfold rnd
  have h1 : ((P : ℚ) / 11258999068426240000000000000000000000000000000000) *
      2 ^ 50 = (P : ℚ) / ((10000000000000000000000000000000000 : ℤ) : ℚ) := by
    push_cast
    rw [div_mul_eq_mul_div, div_eq_div_iff (by norm_num) (by norm_num)]
    ring
  rw [h1, floor_fdiv P 10000000000000000000000000000000000 (by norm_num)]
  norm_num

theorem shadow_bridge (n : ℕ) :
    (shadowZ stepQ n).1 =
      ((iterI stepI (0, 0) n).1 : ℚ) / 1125899906842624 ∧
    (shadowZ stepQ n).2 =
      ((iterI stepI (0, 0) n).2 : ℚ) / 1125899906842624 := by
  induction n with
  | zero => constructor <;> simp [shadowZ, iterI]
  | succ n ih =>
    have hpre1 : preZ1 stepQ n =
        ((stepI n * qb1i * 112589990684262400000000000000000 +
          (iterI stepI (0, 0) n).2 * 10000000000000000000000000000000000 -
          qa1i * (stepI n * qb0i * 1125899906842624 +
            (iterI stepI (0, 0) n).1 * 100000000000000000) : ℤ) : ℚ) /
          11258999068426240000000000000000000000000000000000 := by
      unfold preZ1 shadowOut
      rw [ih.1, ih.2, stepQ_cast n, qb0_eq, qb1_eq, qa1_eq]
      push_cast
      field_simp
      ring
    have hpre2 : preZ2 stepQ n =
        ((stepI n * qb0i * 112589990684262400000000000000000 -
          qa2i * (stepI n * qb0i * 1125899906842624 +
            (iterI stepI (0, 0) n).1 * 100000000000000000) : ℤ) : ℚ) /
          11258999068426240000000000000000000000000000000000 := by
      unfold preZ2 shadowOut
      rw [ih.1, stepQ_cast n, qb0_eq, qa2_eq]
      push_cast
      field_simp
      ring
    rw [shadowZ_succ]
    constructor
    · show rnd (preZ1 stepQ n) = _
      rw [hpre1, rnd_fdiv]
      rfl
    · show rnd (preZ2 stepQ n) = _
      rw [hpre2, rnd_fdiv]
      rfl

theorem shadowOut_bridge (n : ℕ) :
    shadowOut stepQ n =
      ((yIof (stepI n) (iterI stepI (0, 0) n) : ℤ) : ℚ) /
        112589990684262400000000000000000 := by
  unfold shadowOut yIof
  rw [(shadow_bridge n).1, stepQ_cast n, qb0_eq]
  rw [eq_div_iff (by norm_num : (112589990684262400000000000000000 : ℚ) ≠ 0)]
  push_cast
  ring

theorem yI_bound_all : ∀ n, n < 250 →
    -118219490218475520000000000000000 ≤
      yIof (stepI n) (iterI stepI (0, 0) n) ∧
    yIof (stepI n) (iterI stepI (0, 0) n) ≤
      118219490218475520000000000000000 := by
  intro n hn
  rcases Nat.lt_or_ge n 50 with h | h
  · exact bd0 n h
  rcases Nat.lt_or_ge n 100 with h2 | h2
  · obtain ⟨i, rfl⟩ : ∃ i, n = 50 + i := ⟨n - 50, by omega⟩
    rw [iterI_add, ck1]
    exact bd1 i (by omega)
  rcases Nat.lt_or_ge n 150 with h3 | h3
  · obtain ⟨i, rfl⟩ : ∃ i, n = 100 + i := ⟨n - 100, by omega⟩
    rw [iterI_add, st100]
    exact bd2 i (by omega)
  rcases Nat.lt_or_ge n 200 with h4 | h4
  · obtain ⟨i, rfl⟩ : ∃ i, n = 150 + i := ⟨n - 150, by omega⟩
    rw [iterI_add, st150]
    exact bd3 i (by omega)
  · obtain ⟨i, rfl⟩ : ∃ i, n = 200 + i := ⟨n - 200, by omega⟩
    rw [iterI_add, st200]
    exact bd4 i (by omega)

theorem shadow_bound_all : ∀ n, n < 250 → |shadowOut stepQ n| ≤ 21 / 20 := by
  intro n hn
  have hI := yI_bound_all n hn
  have h1 : ((-118219490218475520000000000000000 : ℤ) : ℚ) ≤
      ((yIof (stepI n) (iterI stepI (0, 0) n) : ℤ) : ℚ) :=
    Int.cast_le.mpr hI.1
  have h2 : ((yIof (stepI n) (iterI stepI (0, 0) n) : ℤ) : ℚ) ≤
      ((118219490218475520000000000000000 : ℤ) : ℚ) :=
    Int.cast_le.mpr hI.2
  push_cast at h1 h2
  rw [shadowOut_bridge n, abs_le]
  constructor <;> linarith

theorem y199Q : 99 / 100 ≤ shadowOut stepQ 199 ∧
    shadowOut stepQ 199 ≤ 101 / 100 := by
  have hiter : iterI stepI (0, 0) 199 =
      iterI (fun i => stepI (150 + i))
        (1094533577206138, -629390555699334) 49 := by
    show iterI stepI (0, 0) (150 + 49) = _
    rw [iterI_add, st150]
  have hI := y199I
  rw [← hiter] at hI
  have h1 : ((111464090777419776000000000000000 : ℤ) : ℚ) ≤
      ((yIof (stepI 199) (iterI stepI (0, 0) 199) : ℤ) : ℚ) :=
    Int.cast_le.mpr hI.1
  have h2 : ((yIof (stepI 199) (iterI stepI (0, 0) 199) : ℤ) : ℚ) ≤
      ((113715890591105024000000000000000 : ℤ) : ℚ) :=
    Int.cast_le.mpr hI.2
  push_cast at h1 h2
  rw [shadowOut_bridge 199]
  constructor <;> linarith

theorem y249Q : 26 / 10000000 ≤ shadowOut stepQ 249 ∧
    shadowOut stepQ 249 ≤ 27 / 10000000 := by
  have hiter : iterI stepI (0, 0) 249 =
      iterI (fun i => stepI (200 + i))
        (1094533577206138, -629390555699334) 49 := by
    show iterI stepI (0, 0) (200 + 49) = _
    rw [iterI_add, st200]
  have hI := y249I
  rw [← hiter] at hI
  have h1 : ((292733975779082240000000000 : ℤ) : ℚ) ≤
      ((yIof (stepI 249) (iterI stepI (0, 0) 249) : ℤ) : ℚ) :=
    Int.cast_le.mpr hI.1
  have h2 : ((yIof (stepI 249) (iterI stepI (0, 0) 249) : ℤ) : ℚ) ≤
      ((303992974847508480000000000 : ℤ) : ℚ) :=
    Int.cast_le.mpr hI.2
  push_cast at h1 h2
  rw [shadowOut_bridge 249]
  constructor <;> linarith

theorem stepQ_abs : ∀ n, |stepQ n| ≤ 1 := by
  intro n
  unfold stepQ
  by_cases h : n < 200 <;> simp [h]

theorem driveSeq_congr (f : BiquadFilter) (x y : ℕ → ℝ) (n : ℕ)
    (h : ∀ m, m < n → x m = y m) : driveSeq f x n = driveSeq f y n := by
  induction n with
  | zero => rfl
  | succ n ih =>
    simp only [driveSeq]
    rw [ih (fun m hm => h m (by omega)), h n (by omega)]

theorem driveSeq_add (f : BiquadFilter) (x : ℕ → ℝ) (a b : ℕ) :
    driveSeq f x (a + b) =
      driveSeq (driveSeq f x a) (fun i => x (a + i)) b := by
  induction b with
  | zero => rfl
  | succ b ih =>
    show ((driveSeq f x (a + b)).Update (x (a + b))).2 = _
    rw [ih]
    rfl

/-- C6: feeding constant input `1.0` into the filter built by
`MakeLowPass 12 200 0.707`, the value returned by the 200th `Update` call lies
strictly between `0.9` and `1.1`. -/
theorem stepResponse_C6 :
    0.9 < outSeq (MakeLowPass 12 200 0.707) (fun _ => (1 : ℝ)) 199 ∧
    outSeq (MakeLowPass 12 200 0.707) (fun _ => (1 : ℝ)) 199 < 1.1 := by
  have hc := out_close stepQ stepQ_abs 199
    (fun n hn => shadow_bound_all n (by omega)) 199 le_rfl
  have h9 := y199Q
  have hcast1 : ((99 / 100 : ℚ) : ℝ) ≤ ((shadowOut stepQ 199 : ℚ) : ℝ) := by
    exact_mod_cast h9.1
  have hcast2 : ((shadowOut stepQ 199 : ℚ) : ℝ) ≤ ((101 / 100 : ℚ) : ℝ) := by
    exact_mod_cast h9.2
  norm_num at hcast1 hcast2
  have hout : outSeq lpf (realX stepQ) 199 =
      outSeq (MakeLowPass 12 200 0.707) (fun _ => (1 : ℝ)) 199 := by
    unfold outSeq
    rw [driveSeq_congr lpf (realX stepQ) (fun _ => (1 : ℝ)) 199
        (by intro m hm
            have hm2 : m < 200 := by omega
            simp [realX, stepQ, hm2]),
      show realX stepQ 199 = (1 : ℝ) from by norm_num [realX, stepQ]]
    rfl
  rw [abs_le] at hc
  rw [← hout]
  constructor <;> linarith [hc.1, hc.2]

theorem c5out_eq : c5out = outSeq lpf (realX stepQ) 249 := by
  unfold c5out outSeq
  have h200 : driveSeq lpf (realX stepQ) 249 =
      driveSeq (driveSeq (MakeLowPass 12 200 0.707) (fun _ => (1 : ℝ)) 200)
        (fun _ => (0 : ℝ)) 49 := by
    have h1 : driveSeq lpf (realX stepQ) 200 =
        driveSeq (MakeLowPass 12 200 0.707) (fun _ => (1 : ℝ)) 200 :=
      driveSeq_congr _ _ _ 200 (by intro m hm; simp [realX, stepQ, hm])
    have h2 : driveSeq lpf (realX stepQ) (200 + 49) =
        driveSeq (driveSeq lpf (realX stepQ) 200)
          (fun i => realX stepQ (200 + i)) 49 :=
      driveSeq_add lpf (realX stepQ) 200 49
    rw [show (249 : ℕ) = 200 + 49 from rfl, h2, h1]
    exact driveSeq_congr _ _ _ 49
      (by intro m hm
          have hm2 : ¬(200 + m < 200) := by omega
          simp [realX, stepQ, hm2])
  rw [h200, show realX stepQ 249 = (0 : ℝ) from by norm_num [realX, stepQ]]

/-- C5 counterexample: in the spec's scenario (drive the
`MakeLowPass 12 200 0.707` filter with 200 updates of `1.0`, then feed `0.0`
for 50 updates), the magnitude of the 50th zero-input output does NOT fall
below `1e-6`: it is about `2.6e-6`. -/
theorem zeroDecay_C5_counterexample : ¬ (|c5out| < 0.000001) := by
  have hc := out_close stepQ stepQ_abs 249
    (fun n hn => shadow_bound_all n (by omega)) 249 le_rfl
  have h9 := y249Q
  have hcast1 : ((26 / 10000000 : ℚ) : ℝ) ≤ ((shadowOut stepQ 249 : ℚ) : ℝ) := by
    exact_mod_cast h9.1
  norm_num at hcast1
  rw [abs_le] at hc
  rw [c5out_eq, abs_lt]
  intro hcon
  linarith [hc.1, hcon.2]

/-- C5 (amended): after driving the `MakeLowPass 12 200 0.707` filter with 200
updates of constant input `1.0` and then feeding input `0.0` for 50 successive
updates, the magnitude of the 50th output is below `1e-5` (though not below
the spec's `1e-6`). -/
theorem zeroDecay_C5_amended : |c5out| < 0.00001 := by
  have hc := out_close stepQ stepQ_abs 249
    (fun n hn => shadow_bound_all n (by omega)) 249 le_rfl
  have h9 := y249Q
  have hcast1 : ((26 / 10000000 : ℚ) : ℝ) ≤ ((shadowOut stepQ 249 : ℚ) : ℝ) := by
    exact_mod_cast h9.1
  have hcast2 : ((shadowOut stepQ 249 : ℚ) : ℝ) ≤ ((27 / 10000000 : ℚ) : ℝ) := by
    exact_mod_cast h9.2
  norm_num at hcast1 hcast2
  rw [abs_le] at hc
  rw [c5out_eq, abs_lt]
  constructor <;> linarith [hc.1, hc.2]
